import Mathlib

/-!
Shallow embedding of the `phase1` ride-hailing dispatch scaffold
(`phase1/io_mod.py`, `phase1/sim_mod.py`) together with proofs about the
per-tick step function `simulate_step` and the CSV loaders.

Modelling conventions:
* Python floats carried through the simulation are modelled as rationals
  (`Rat`); the scaffold performs no floating-point arithmetic on the paths
  analysed here (the movement helper bodies are empty).
* Python ints are modelled as `Int` (times) or `Nat` (counters, ids).
* Python dicts become structures with the same field names.
* Fallible Python execution (a missing import, an unbound local, a
  `ValueError` from `float(...)`) is modelled with `Except PyErr`.
-/

namespace Phase1

/-- Request lifecycle states: the Python `status` strings. -/
inductive Status
  | waiting
  | assigned
  | picked
  | delivered
  | expired
deriving DecidableEq

/-- A request dictionary as built by `load_requests` in `io_mod.py`:
`{"id", "px", "py", "dx", "dy", "t", "t_wait", "status", "driver_id"}`. -/
structure Request where
  id : Nat
  px : Rat
  py : Rat
  dx : Rat
  dy : Rat
  t : Int
  t_wait : Int
  status : Status
  driver_id : Option Nat
deriving DecidableEq

/-- A driver dictionary as built by `load_drivers` in `io_mod.py`:
`{"id", "x", "y", "vx", "vy", "tx", "ty", "target_id"}` (target fields are
`None` until an order is assigned). -/
structure Driver where
  id : Nat
  x : Rat
  y : Rat
  vx : Rat
  vy : Rat
  tx : Option Rat
  ty : Option Rat
  target_id : Option Nat
deriving DecidableEq

/-- The state dictionary built by `init_state` in `sim_mod.py`. -/
structure SimState where
  t : Int
  drivers : List Driver
  pending : List Request
  future : List Request
  served : Nat
  expired : Nat
  timeout : Int
  served_waits : List Int
  req_rate : Rat
  width : Int
  height : Int
deriving DecidableEq

/-- The metrics dictionary the GUI callers expect from `simulate_step`
(`popupWindow.py` reads `metrics["served"]`, `metrics["expired"]`,
`metrics["avg_wait"]`). The source never constructs it. -/
structure Metrics where
  served : Nat
  expired : Nat
  avg_wait : Rat
deriving DecidableEq

/-- Failure modes of the Python code paths modelled here. -/
inductive PyErr
  | importGenerateRequests
  | unboundLocalTarget
  | unboundLocalReq
  | reqIsNone
  | ghostIndex
  | valueError
deriving DecidableEq

/-- A target point `(x, y)`, a Python tuple of floats. -/
abbrev Point := Rat × Rat

/-- `init_state` from `sim_mod.py`. -/
def init_state (drivers : List Driver) (requests : List Request)
    (timeout : Int) (rate : Rat) (width height : Int) : SimState :=
  { t := 0
    drivers := drivers
    pending := requests
    future := []
    served := 0
    expired := 0
    timeout := timeout
    served_waits := []
    req_rate := rate
    width := width
    height := height }

/-- `io_mod.py` (lines 1-113) defines exactly `load_drivers`,
`load_requests` and `generate_drivers`; it defines no function named
`generate_requests`, so the import
`from phase1.io_mod import generate_requests` at the top of `sim_mod.py`
cannot resolve. -/
def io_mod_defines_generate_requests : Bool := false

/-- `close_enough` from `sim_mod.py` (lines 157-160): the body consists
only of a docstring, so every call returns Python `None`. -/
def close_enough (_driver : Driver) (_target : Point) : Option Bool := none

/-- Python truthiness of an optional boolean: `None` is falsy. -/
def truthy : Option Bool → Bool
  | none => false
  | some b => b

/-- The truth value `close_enough` contributes in a conditional: always
`false`, since the unimplemented body returns `None`. -/
def close_enough_truthy (d : Driver) (target : Point) : Bool :=
  truthy (close_enough d target)

/-- `move_driver` from `sim_mod.py` (lines 147-150): the body consists
only of a docstring, so the call mutates nothing. -/
def move_driver (d : Driver) (_target : Point) : Driver := d

/-! ## The expiration loop (`sim_mod.py` lines 72-78)

```
for req in state["pending"]:
    if req["status"] in ("waiting", "assigned"):
        wait_time = state["t"] - req["t"]
        if wait_time > state["timeout"]:
            req["status"] = "expired"
            state["expired"] += 1
```
-/

/-- One request as the expiration loop leaves it. -/
def expireReq (t timeout : Int) (r : Request) : Request :=
  if (r.status = .waiting ∨ r.status = .assigned) ∧ t - r.t > timeout then
    { r with status := .expired }
  else r

/-- Whether the expiration loop marks this request expired on this tick. -/
def newlyExpired (t timeout : Int) (r : Request) : Bool :=
  decide ((r.status = .waiting ∨ r.status = .assigned) ∧ t - r.t > timeout)

/-- The expiration loop over the pending list, threading the `expired`
counter. -/
def expire_go (t timeout : Int) : List Request → Nat → List Request × Nat
  | [], n => ([], n)
  | r :: rs, n =>
    if (r.status = .waiting ∨ r.status = .assigned) ∧ t - r.t > timeout then
      let p := expire_go t timeout rs (n + 1)
      ({ r with status := .expired } :: p.1, p.2)
    else
      let p := expire_go t timeout rs n
      (r :: p.1, p.2)

/-- The expiration phase of `simulate_step`. -/
def expire_pass (s : SimState) : SimState :=
  let p := expire_go s.t s.timeout s.pending s.expired
  { s with pending := p.1, expired := p.2 }

/-! ## The assignment loop (`sim_mod.py` lines 81-91)

```
for driver in state["drivers"]:
    if driver["target_id"] is None:
        for req in state["pending"]:
            if req["status"] == "waiting":
                req["status"] = "assigned"
                req["driver_id"] = driver["id"]
                driver["target_id"] = req["id"]
                driver["tx"], driver["ty"] = req["px"], req["py"]
                break
```

The loop variable `req` of the inner scan (and of the expiration loop
above) leaks into the enclosing function scope in Python; the movement
loop later reads that leftover binding, so the passes below thread it
explicitly as a `ReqVar`.
-/

/-- The leftover binding of the Python local `req`: never bound, bound to
`None` (after a failed `next(...)` lookup), or an alias of the pending
list element at a given index. -/
inductive ReqVar
  | unbound
  | noneV
  | idx (i : Nat)
deriving DecidableEq

/-- The inner scan of the assignment loop: find the first waiting request,
mark it assigned to driver `d`, and report its index together with the
updated record. -/
def assign_scan (d : Driver) : List Request → List Request × Option (Nat × Request)
  | [] => ([], none)
  | r :: rs =>
    if r.status = .waiting then
      let r' := { r with status := .assigned, driver_id := some d.id }
      (r' :: rs, some (0, r'))
    else
      let p := assign_scan d rs
      (r :: p.1, (p.2).map (fun ir => (ir.1 + 1, ir.2)))

/-- One iteration of the assignment loop for driver `d`, threading the
pending list and the leftover `req` binding. -/
def assign_driver1 (p : List Request) (rv : ReqVar) (d : Driver) :
    Driver × List Request × ReqVar :=
  if d.target_id = none then
    match assign_scan d p with
    | (p', some ir) =>
        ({ d with target_id := some ir.2.id, tx := some ir.2.px, ty := some ir.2.py },
         p', ReqVar.idx ir.1)
    | (p', none) =>
        (d, p', if p.length = 0 then rv else ReqVar.idx (p.length - 1))
  else (d, p, rv)

/-- The assignment loop over the driver list. -/
def assign_go (p : List Request) (rv : ReqVar) :
    List Driver → List Driver × List Request × ReqVar
  | [] => ([], p, rv)
  | d :: ds =>
    let q := assign_driver1 p rv d
    let z := assign_go q.2.1 q.2.2 ds
    (q.1 :: z.1, z.2.1, z.2.2)

/-! ## The movement / pickup / delivery loop (`sim_mod.py` lines 94-129)

```
for driver in state["drivers"]:
    if driver["target_id"] is not None:
        req = next((r for r in state["pending"] if r["id"] == driver["target_id"]), None)
        if req is None:
            continue
        if req["status"] == "assigned":
            target = (req["px"], req["py"])
        else:
            target = (req["dx"], req["dy"])
        move_driver(driver, target)

    # NOTE: dedented to the level of the for-loop, not inside the if above
    if close_enough(driver, target) and req["status"] == "assigned":
        req["status"] = "picked"
        driver["tx"], driver["ty"] = req["dx"], req["dy"]
    elif close_enough(driver, target) and req["status"] == "picked":
        req["status"] = "delivered"
        state["served"] += 1
        state["served_waits"].append(state["t"] - req["t"])
        driver["target_id"] = None
```

The two check statements sit at the loop level, so they run for every
driver that was not skipped by `continue`, reading whatever `target` and
`req` currently denote.  The helper calls `move_driver` / `close_enough`
resolve to the module-level functions; the pass is parameterized over
them (`mv`, `ce` below, where `ce` is the truthiness of the returned
value) and instantiated with the source's definitions where the actual
behaviour is analysed.
-/

/-- `next((r for r in pending if r["id"] == tid), None)`: the first
pending request with the given id, together with its index. -/
def findReq : List Request → Nat → Option (Nat × Request)
  | [], _ => none
  | r :: rs, tid =>
    if r.id = tid then some (0, r)
    else (findReq rs tid).map (fun ir => (ir.1 + 1, ir.2))

/-- The dedented pickup / delivery check block, for the current driver
`d`, with the current leftover `req` binding `rv` and `target` binding
`tv`.  Reading an unbound `target` or `req` is a `NameError`
(`unboundLocalTarget` / `unboundLocalReq`); subscripting a `None`-valued
`req` is a `TypeError` (`reqIsNone`).  In Python the short-circuit `and`
evaluates `req` only when the `close_enough` value is truthy.
`ghostIndex` totalizes the out-of-range case, which stored indices never
reach. -/
def move_check (ce : Driver → Point → Bool) (s : SimState) (rv : ReqVar)
    (tv : Option Point) (d : Driver) :
    Except PyErr (SimState × ReqVar × Option Point × Driver) :=
  match tv with
  | none => .error .unboundLocalTarget
  | some tgt =>
    if ce d tgt then
      match rv with
      | .unbound => .error .unboundLocalReq
      | .noneV => .error .reqIsNone
      | .idx i =>
        match s.pending[i]? with
        | none => .error .ghostIndex
        | some r =>
          if r.status = .assigned then
            .ok ({ s with pending := s.pending.set i { r with status := .picked } },
                 rv, tv, { d with tx := some r.dx, ty := some r.dy })
          else if r.status = .picked then
            .ok ({ s with
                    pending := s.pending.set i { r with status := .delivered },
                    served := s.served + 1,
                    served_waits := s.served_waits ++ [s.t - r.t] },
                 rv, tv, { d with target_id := none })
          else .ok (s, rv, tv, d)
    else .ok (s, rv, tv, d)

/-- One iteration of the movement loop for driver `d`. -/
def move_one (mv : Driver → Point → Driver) (ce : Driver → Point → Bool)
    (s : SimState) (rv : ReqVar) (tv : Option Point) (d : Driver) :
    Except PyErr (SimState × ReqVar × Option Point × Driver) :=
  match d.target_id with
  | some tid =>
    match findReq s.pending tid with
    | none => .ok (s, .noneV, tv, d)
    | some ir =>
      let tgt : Point :=
        if ir.2.status = .assigned then (ir.2.px, ir.2.py) else (ir.2.dx, ir.2.dy)
      move_check ce s (ReqVar.idx ir.1) (some tgt) (mv d tgt)
  | none => move_check ce s rv tv d

/-- The movement loop over the driver list, rebuilding the driver list
and threading the state and the leftover locals. -/
def move_go (mv : Driver → Point → Driver) (ce : Driver → Point → Bool)
    (s : SimState) (rv : ReqVar) (tv : Option Point) :
    List Driver → Except PyErr (SimState × List Driver)
  | [] => .ok (s, [])
  | d :: ds => do
    let st ← move_one mv ce s rv tv d
    let z ← move_go mv ce st.1 st.2.1 st.2.2.1 ds
    .ok (z.1, st.2.2.2 :: z.2)

/-- The movement phase of `simulate_step`: the loop of lines 94-129,
entered with `target` unbound and the leftover `req` binding `rv`. -/
def move_pass (mv : Driver → Point → Driver) (ce : Driver → Point → Bool)
    (rv : ReqVar) (s : SimState) : Except PyErr SimState := do
  let z ← move_go mv ce s rv none s.drivers
  .ok { z.1 with drivers := z.2 }

/-- The leftover `req` binding after the expiration loop: the last
pending element if the list is nonempty, otherwise still unbound. -/
def expire_leftover (p : List Request) : ReqVar :=
  if p.length = 0 then .unbound else .idx (p.length - 1)

/-- Lines 72-129 of `simulate_step`: the expiration, assignment and
movement phases of one tick, i.e. the part of the body after the
`generate_requests` call.  The actual execution never reaches these lines
(the import of `generate_requests` cannot resolve); this function gives
their semantics for a state in which generation had completed, with the
movement helpers passed explicitly and instantiated with the source's
(unimplemented) `move_driver` / `close_enough` where concrete behaviour
is evaluated. -/
def simulate_step_tail (mv : Driver → Point → Driver)
    (ce : Driver → Point → Bool) (s : SimState) : Except PyErr SimState :=
  let s1 := expire_pass s
  let rv0 := expire_leftover s1.pending
  let z := assign_go s1.pending rv0 s1.drivers
  let s2 := { s1 with drivers := z.1, pending := z.2.1 }
  move_pass mv ce z.2.2 s2

/-- `simulate_step` from `sim_mod.py` (lines 44-141).  The module-level
statement `from phase1.io_mod import generate_requests` cannot resolve
(`io_mod` defines no such function), so every attempted call fails at
the request-generation phase, right after `state["t"] += 1`; the
function also contains no `return` statement, so even a completed body
would produce no `(state, metrics)` pair. -/
def simulate_step (s : SimState) : Except PyErr (SimState × Metrics) :=
  let _s1 := { s with t := s.t + 1 }
  .error .importGenerateRequests

/-! ## The CSV loaders (`io_mod.py` lines 2-74)

Input lines are modelled post-tokenization: a line is blank, a comment
(first character `#`), or a comma-split list of fields; a field either
parses as a Python float literal (carrying its rational value) or does
not (`text`). -/

/-- A CSV field: numeric text with value `q`, or non-numeric text. -/
inductive Field
  | num (q : Rat)
  | text
deriving DecidableEq

/-- A stripped input line. -/
inductive Line
  | blank
  | comment
  | fields (fs : List Field)
deriving DecidableEq

/-- Python `float(field)`: the value, or a `ValueError` (`none`). -/
def pyFloat : Field → Option Rat
  | .num q => some q
  | .text => none

/-- Python `int(q)` on a float value: truncation toward zero. -/
def pyInt (q : Rat) : Int :=
  if 0 ≤ q then q.floor else q.ceil

/-- `load_drivers` (lines 2-35), threading the running count `n`
(`"id": len(drivers)`).  Blank lines, comments and lines with fewer than
two fields are skipped; a line with at least two fields whose first two
do not parse as floats raises `ValueError`. -/
def load_drivers_go (n : Nat) : List Line → Except PyErr (List Driver)
  | [] => .ok []
  | Line.blank :: ls => load_drivers_go n ls
  | Line.comment :: ls => load_drivers_go n ls
  | Line.fields [] :: ls => load_drivers_go n ls
  | Line.fields [_] :: ls => load_drivers_go n ls
  | Line.fields (f1 :: f2 :: _) :: ls =>
    match pyFloat f1, pyFloat f2 with
    | some x, some y => do
      let ds ← load_drivers_go (n + 1) ls
      .ok ({ id := n, x := x, y := y, vx := 0, vy := 0,
             tx := none, ty := none, target_id := none } :: ds)
    | _, _ => .error .valueError

/-- `load_drivers` from `io_mod.py`. -/
def load_drivers (ls : List Line) : Except PyErr (List Driver) :=
  load_drivers_go 0 ls

/-- `load_requests` (lines 37-74), threading the running count `n`.
Lines with fewer than five fields are skipped; five-or-more-field lines
with a non-numeric value among the first five raise `ValueError`. -/
def load_requests_go (n : Nat) : List Line → Except PyErr (List Request)
  | [] => .ok []
  | Line.blank :: ls => load_requests_go n ls
  | Line.comment :: ls => load_requests_go n ls
  | Line.fields [] :: ls => load_requests_go n ls
  | Line.fields [_] :: ls => load_requests_go n ls
  | Line.fields [_, _] :: ls => load_requests_go n ls
  | Line.fields [_, _, _] :: ls => load_requests_go n ls
  | Line.fields [_, _, _, _] :: ls => load_requests_go n ls
  | Line.fields (f1 :: f2 :: f3 :: f4 :: f5 :: _) :: ls =>
    match pyFloat f1, pyFloat f2, pyFloat f3, pyFloat f4, pyFloat f5 with
    | some tq, some pxq, some pyq, some dxq, some dyq => do
      let rs ← load_requests_go (n + 1) ls
      .ok ({ id := n, px := pxq, py := pyq, dx := dxq, dy := dyq,
             t := pyInt tq, t_wait := 0, status := .waiting,
             driver_id := none } :: rs)
    | _, _, _, _, _ => .error .valueError

/-- `load_requests` from `io_mod.py`. -/
def load_requests (ls : List Line) : Except PyErr (List Request) :=
  load_requests_go 0 ls

/-! ## Derived definitions used by the theorem statements -/

/-- The forward order on request statuses: `statusLe a b` holds when `b`
is reachable from `a` along
`waiting → assigned → picked → delivered` or `waiting/assigned → expired`. -/
def statusLe : Status → Status → Bool
  | .waiting, _ => true
  | .assigned, .waiting => false
  | .assigned, _ => true
  | .picked, .picked => true
  | .picked, .delivered => true
  | .picked, _ => false
  | .delivered, .delivered => true
  | .delivered, _ => false
  | .expired, .expired => true
  | .expired, _ => false

/-- One-call evolution invariant relating a state to the state a
(successful) run of lines 72-129 produces: time unchanged, pending length
unchanged, wait list only appended to, each pending slot keeps its id and
creation time, moves only forward in status, and records its wait when it
becomes delivered. -/
def StepInv (s out : SimState) : Prop :=
  out.t = s.t ∧
  out.pending.length = s.pending.length ∧
  (∃ ws, out.served_waits = s.served_waits ++ ws) ∧
  ∀ (j : Nat) (r r' : Request), s.pending[j]? = some r → out.pending[j]? = some r' →
    r'.id = r.id ∧ r'.t = r.t ∧ statusLe r.status r'.status = true ∧
    (r'.status = Status.delivered → r.status ≠ Status.delivered →
      (s.t - r.t) ∈ out.served_waits)

/-- Index of the first pending request with status `waiting`. -/
def firstWaitingIdx : List Request → Option Nat
  | [] => none
  | r :: rs =>
    if r.status = .waiting then some 0 else (firstWaitingIdx rs).map (· + 1)

/-- The `(x, y)` value of a driver CSV line when its first two fields are
numeric; `none` for skipped or crashing lines. -/
def driverLineVal : Line → Option (Rat × Rat)
  | .fields (f1 :: f2 :: _) =>
    match pyFloat f1, pyFloat f2 with
    | some x, some y => some (x, y)
    | _, _ => none
  | _ => none

/-- A driver CSV line that makes `load_drivers` raise: at least two
fields, a non-numeric value among the first two. -/
def driverLineBad : Line → Bool
  | .fields (f1 :: f2 :: _) => (pyFloat f1).isNone || (pyFloat f2).isNone
  | _ => false

/-- The field values of a request CSV line when its first five fields are
numeric. -/
def reqLineVal : Line → Option (Rat × Rat × Rat × Rat × Rat)
  | .fields (f1 :: f2 :: f3 :: f4 :: f5 :: _) =>
    match pyFloat f1, pyFloat f2, pyFloat f3, pyFloat f4, pyFloat f5 with
    | some tq, some pxq, some pyq, some dxq, some dyq =>
      some (tq, pxq, pyq, dxq, dyq)
    | _, _, _, _, _ => none
  | _ => none

/-- A request CSV line that makes `load_requests` raise. -/
def reqLineBad : Line → Bool
  | .fields (f1 :: f2 :: f3 :: f4 :: f5 :: _) =>
    (pyFloat f1).isNone || (pyFloat f2).isNone || (pyFloat f3).isNone ||
      (pyFloat f4).isNone || (pyFloat f5).isNone
  | _ => false

/-- The driver record `load_drivers` builds for the `n`-th kept line. -/
def mkDriver (n : Nat) (xy : Rat × Rat) : Driver :=
  { id := n, x := xy.1, y := xy.2, vx := 0, vy := 0,
    tx := none, ty := none, target_id := none }

/-- Driver records for the kept lines, numbered from `n` in file order. -/
def numberDrivers (n : Nat) : List (Rat × Rat) → List Driver
  | [] => []
  | xy :: xs => mkDriver n xy :: numberDrivers (n + 1) xs

/-- The request record `load_requests` builds for the `n`-th kept line. -/
def mkRequest (n : Nat) (v : Rat × Rat × Rat × Rat × Rat) : Request :=
  { id := n, px := v.2.1, py := v.2.2.1, dx := v.2.2.2.1, dy := v.2.2.2.2,
    t := pyInt v.1, t_wait := 0, status := .waiting, driver_id := none }

/-- Request records for the kept lines, numbered from `n` in file order. -/
def numberRequests (n : Nat) : List (Rat × Rat × Rat × Rat × Rat) → List Request
  | [] => []
  | v :: vs => mkRequest n v :: numberRequests (n + 1) vs

/-! ## Concrete states used as witnesses and counterexamples -/

/-- The spec's worked example: a driver at the origin. -/
def scenarioDriver : Driver :=
  { id := 0, x := 0, y := 0, vx := 0, vy := 0, tx := none, ty := none,
    target_id := none }

/-- The spec's worked example: pickup `(0,0)`, dropoff `(5,5)`, created at
tick 0. -/
def scenarioRequest : Request :=
  { id := 0, px := 0, py := 0, dx := 5, dy := 5, t := 0, t_wait := 0,
    status := .waiting, driver_id := none }

/-- The example state on its first tick (`t` already advanced to 1). -/
def scenarioTick1 : SimState :=
  { init_state [scenarioDriver] [scenarioRequest] 10 (4/5) 50 40 with t := 1 }

/-- What lines 72-129 actually produce on the example state: the request
is assigned (never picked) and the driver does not move. -/
def scenarioOut : SimState :=
  { t := 1
    drivers := [{ id := 0, x := 0, y := 0, vx := 0, vy := 0,
                  tx := some 0, ty := some 0, target_id := some 0 }]
    pending := [{ id := 0, px := 0, py := 0, dx := 5, dy := 5, t := 0,
                  t_wait := 0, status := .assigned, driver_id := some 0 }]
    future := []
    served := 0
    expired := 0
    timeout := 10
    served_waits := []
    req_rate := 4/5
    width := 50
    height := 40 }

/-- A hypothetical arrival predicate that always reports arrival; used to
exercise the pickup/delivery branches, which the source's `close_enough`
(returning `None`) never enables. -/
def ceTrue : Driver → Point → Bool := fun _ _ => true

/-- A request already picked up, for the delivery-branch demonstrations. -/
def pickedReq : Request :=
  { id := 7, px := 1, py := 2, dx := 3, dy := 4, t := 0, t_wait := 0,
    status := .picked, driver_id := some 0 }

/-- A driver en route to `pickedReq`. -/
def busyDriver : Driver :=
  { id := 0, x := 0, y := 0, vx := 0, vy := 0, tx := some 3, ty := some 4,
    target_id := some 7 }

/-- A driver with no active assignment. -/
def idleDriver : Driver :=
  { id := 1, x := 9, y := 9, vx := 0, vy := 0, tx := none, ty := none,
    target_id := none }

/-- A state at tick 4 with one busy driver and one picked request. -/
def deliveryState : SimState :=
  { init_state [busyDriver] [pickedReq] 10 1 50 40 with t := 4 }

/-- What lines 72-129 produce on `deliveryState` under the
always-arrived predicate: the request is delivered and its wait `4 - 0`
is recorded. -/
def deliveryOut : SimState :=
  { t := 4
    drivers := [{ id := 0, x := 0, y := 0, vx := 0, vy := 0,
                  tx := some 3, ty := some 4, target_id := none }]
    pending := [{ id := 7, px := 1, py := 2, dx := 3, dy := 4, t := 0,
                  t_wait := 0, status := .delivered, driver_id := some 0 }]
    future := []
    served := 1
    expired := 0
    timeout := 10
    served_waits := [4]
    req_rate := 1
    width := 50
    height := 40 }

/-- A request still assigned, for the leftover-variable demonstration. -/
def assignedReq : Request :=
  { id := 7, px := 1, py := 2, dx := 3, dy := 4, t := 0, t_wait := 0,
    status := .assigned, driver_id := some 0 }

/-- A state with one busy and one idle driver and one assigned request:
under the always-arrived predicate the busy driver's check picks the
request up, and then the idle driver's check, reading the leftover
`target` and `req`, delivers it. -/
def leftoverState : SimState :=
  { init_state [{ busyDriver with tx := some 1, ty := some 2 }, idleDriver]
      [assignedReq] 10 1 50 40 with t := 4 }

/-- The state the movement loop produces on `leftoverState` under the
always-arrived predicate. -/
def leftoverOut : SimState :=
  { t := 4
    drivers := [{ id := 0, x := 0, y := 0, vx := 0, vy := 0,
                  tx := some 3, ty := some 4, target_id := some 7 },
                { id := 1, x := 9, y := 9, vx := 0, vy := 0,
                  tx := none, ty := none, target_id := none }]
    pending := [{ id := 7, px := 1, py := 2, dx := 3, dy := 4, t := 0,
                  t_wait := 0, status := .delivered, driver_id := some 0 }]
    future := []
    served := 1
    expired := 0
    timeout := 10
    served_waits := [4]
    req_rate := 1
    width := 50
    height := 40 }



theorem errorBind {α β ε : Type} (e : ε) (f : α → Except ε β) :
    (Except.error e : Except ε α) >>= f = Except.error e := rfl

theorem okBind {α β ε : Type} (a : α) (f : α → Except ε β) :
    (Except.ok a : Except ε α) >>= f = f a := rfl

/-- Claim C1 (code_bug evidence): `simulate_step` never returns a pair of
updated state and metrics: every call fails at the unresolvable
`generate_requests` import, and the body has no `return` statement. -/
theorem simulate_step_never_returns_metrics :
    ∀ (s : SimState) (out : SimState × Metrics), simulate_step s ≠ Except.ok out := by
  intro s out h
  simp [simulate_step] at h

/-- Claim C2: `io_mod` defines no `generate_requests`, and every call of
`simulate_step` fails at its request-generation phase before completing a
tick. -/
theorem generate_requests_missing_step_fails :
    io_mod_defines_generate_requests = false ∧
    ∀ s : SimState, simulate_step s = Except.error PyErr.importGenerateRequests :=
  ⟨rfl, fun _ => rfl⟩

/-- Claim C3 (code_bug evidence): on the spec's worked example (driver at
the origin, request pickup `(0,0)`, dropoff `(5,5)`), the tolerance check
does not trigger the waiting→assigned→picked transition in the same tick:
`close_enough` returns `None` (falsy), so after lines 72-129 run on the
first tick the request is still `assigned` and the driver has not moved. -/
theorem tolerance_check_never_fires_scenario :
    close_enough scenarioDriver (0, 0) = none ∧
    close_enough_truthy scenarioDriver (0, 0) = false ∧
    simulate_step_tail move_driver close_enough_truthy scenarioTick1 = Except.ok scenarioOut ∧
    scenarioOut.pending.map Request.status = [Status.assigned] ∧
    scenarioOut.drivers.map Driver.x = [0] ∧
    scenarioOut.drivers.map Driver.y = [0] :=
  ⟨rfl, rfl, rfl, rfl, rfl, rfl⟩

/-- Claim C9 counterexample: the loaders do not silently skip every
malformed line: a line with enough fields but a non-numeric value raises
`ValueError` in `float(...)`, so `load_drivers` / `load_requests` fail. -/
theorem load_drivers_fails_on_nonnumeric :
    load_drivers [Line.fields [Field.text, Field.text]] = Except.error PyErr.valueError ∧
    load_requests [Line.fields [Field.num 1, Field.text, Field.num 0, Field.num 0, Field.num 0]]
      = Except.error PyErr.valueError :=
  ⟨rfl, rfl⟩

/-- Claim C10: the dedented pickup/delivery checks run for every driver.
If the first driver reaching the check has no assignment and no earlier
driver bound `target`, the check reads the unbound local `target` and the
call fails; a driver with no assignment that runs after an assigned one
reads the leftover `target`/`req` (demonstrated on `leftoverState`, where
the idle driver's check delivers the busy driver's request). -/
theorem movement_checks_run_for_all_drivers :
    (∀ (mv : Driver → Point → Driver) (ce : Driver → Point → Bool)
       (s : SimState) (rv : ReqVar) (d : Driver) (ds : List Driver),
       s.drivers = d :: ds → d.target_id = none →
       move_pass mv ce rv s = Except.error PyErr.unboundLocalTarget) ∧
    move_pass move_driver ceTrue (ReqVar.idx 0) leftoverState = Except.ok leftoverOut := by
  constructor
  · intro mv ce s rv d ds hds hd
    simp [move_pass, hds, move_go, move_one, hd, move_check, errorBind]
  · rfl

theorem movement_checks_run_for_all_drivers_witness :
    move_pass move_driver close_enough_truthy ReqVar.unbound
      { leftoverState with drivers := [idleDriver] } = Except.error PyErr.unboundLocalTarget :=
  movement_checks_run_for_all_drivers.1 move_driver close_enough_truthy
    { leftoverState with drivers := [idleDriver] } ReqVar.unbound idleDriver [] rfl rfl


theorem expire_go_eq (t k : Int) (rs : List Request) : ∀ n : Nat,
    expire_go t k rs n =
      (rs.map (expireReq t k), n + rs.countP (newlyExpired t k)) := by
  induction rs with
  | nil => intro n; simp [expire_go]
  | cons r rs ih =>
    intro n
    by_cases h : (r.status = .waiting ∨ r.status = .assigned) ∧ t - r.t > k
    · simp [expire_go, h, ih, expireReq, newlyExpired, List.countP_cons]
      omega
    · simp [expire_go, h, ih, expireReq, newlyExpired, List.countP_cons]

/-- Claim C4: the expiration loop marks exactly the waiting/assigned
requests whose age `t - req.t` exceeds the timeout as expired, increments
the expired counter once per newly expired request, and a request ends up
expired iff it already was or was waiting/assigned with age above the
timeout. -/
theorem expire_pass_marks_exactly_timed_out (s : SimState) :
    expire_pass s = { s with
        pending := s.pending.map (expireReq s.t s.timeout),
        expired := s.expired + s.pending.countP (newlyExpired s.t s.timeout) } ∧
    ∀ r : Request, (expireReq s.t s.timeout r).status = Status.expired ↔
      (r.status = Status.expired ∨
        ((r.status = Status.waiting ∨ r.status = Status.assigned) ∧
          s.t - r.t > s.timeout)) := by
  constructor
  · simp [expire_pass, expire_go_eq]
  · intro r
    by_cases h : (r.status = .waiting ∨ r.status = .assigned) ∧ s.t - r.t > s.timeout
    · simp [expireReq, h]
    · simp [expireReq, h]


theorem firstWaitingIdx_some {p : List Request} {i : Nat}
    (h : firstWaitingIdx p = some i) :
    ∃ r, p[i]? = some r ∧ r.status = Status.waiting := by
  induction p generalizing i with
  | nil => simp [firstWaitingIdx] at h
  | cons q qs ih =>
    by_cases hq : q.status = .waiting
    · simp [firstWaitingIdx, hq] at h
      subst h
      exact ⟨q, by simp, hq⟩
    · simp [firstWaitingIdx, hq] at h
      obtain ⟨j, hj, hji⟩ := h
      obtain ⟨r, hr, hw⟩ := ih hj
      exact ⟨r, by simpa [← hji] using hr, hw⟩

theorem assign_scan_of_none (d : Driver) {p : List Request}
    (h : firstWaitingIdx p = none) :
    assign_scan d p = (p, none) := by
  induction p with
  | nil => rfl
  | cons q qs ih =>
    by_cases hq : q.status = .waiting
    · simp [firstWaitingIdx, hq] at h
    · simp [firstWaitingIdx, hq] at h
      simp [assign_scan, hq, ih h]

theorem assign_scan_of_some (d : Driver) {p : List Request} {i : Nat} {r : Request}
    (h : firstWaitingIdx p = some i) (hr : p[i]? = some r) :
    assign_scan d p =
      (p.set i { r with status := Status.assigned, driver_id := some d.id },
       some (i, { r with status := Status.assigned, driver_id := some d.id })) := by
  induction p generalizing i with
  | nil => simp [firstWaitingIdx] at h
  | cons q qs ih =>
    by_cases hq : q.status = .waiting
    · simp [firstWaitingIdx, hq] at h
      subst h
      simp at hr
      subst hr
      simp [assign_scan, hq, List.set]
    · simp [firstWaitingIdx, hq] at h
      obtain ⟨j, hj, hji⟩ := h
      subst hji
      simp at hr
      simp [assign_scan, hq, ih hj hr, List.set]


theorem assign_driver1_busy {p : List Request} {rv : ReqVar} {d : Driver}
    (h : d.target_id ≠ none) : assign_driver1 p rv d = (d, p, rv) := by
  simp [assign_driver1, h]

theorem assign_driver1_free_some {p : List Request} {rv : ReqVar} {d : Driver}
    {i : Nat} {r : Request} (hd : d.target_id = none)
    (hi : firstWaitingIdx p = some i) (hr : p[i]? = some r) :
    assign_driver1 p rv d =
      ({ d with target_id := some r.id, tx := some r.px, ty := some r.py },
       p.set i { r with status := Status.assigned, driver_id := some d.id },
       ReqVar.idx i) := by
  simp [assign_driver1, hd, assign_scan_of_some d hi hr]

theorem assign_driver1_free_none {p : List Request} {rv : ReqVar} {d : Driver}
    (hd : d.target_id = none) (hi : firstWaitingIdx p = none) :
    assign_driver1 p rv d =
      (d, p, if p.length = 0 then rv else ReqVar.idx (p.length - 1)) := by
  simp [assign_driver1, hd, assign_scan_of_none d hi]

theorem assign_driver1_pending (p : List Request) (rv : ReqVar) (d : Driver) :
    (assign_driver1 p rv d).2.1 = p ∨
      ∃ i r, p[i]? = some r ∧ r.status = Status.waiting ∧
        (assign_driver1 p rv d).2.1 =
          p.set i { r with status := Status.assigned, driver_id := some d.id } := by
  by_cases hd : d.target_id = none
  · cases hi : firstWaitingIdx p with
    | none => left; simp [assign_driver1_free_none hd hi]
    | some i =>
      obtain ⟨r, hr, hw⟩ := firstWaitingIdx_some hi
      right
      exact ⟨i, r, hr, hw, by simp [assign_driver1_free_some hd hi hr]⟩
  · left; simp [assign_driver1_busy hd]

theorem assign_driver1_ids (p : List Request) (rv : ReqVar) (d : Driver) :
    ((assign_driver1 p rv d).2.1).map Request.id = p.map Request.id := by
  rcases assign_driver1_pending p rv d with h | ⟨i, r, hr, _, h⟩
  · rw [h]
  · rw [h, List.map_set]
    have hi : (p.map Request.id)[i]? = some r.id := by simp [hr]
    have hset : (p.map Request.id).set i r.id = p.map Request.id := by
      apply List.ext_getElem?
      intro j
      by_cases hij : i = j
      · subst hij
        rw [List.getElem?_set_self (by
          rcases List.getElem?_eq_some_iff.mp hi with ⟨hlt, _⟩
          simpa using hlt)]
        exact hi.symm
      · rw [List.getElem?_set_ne hij]
    exact hset

theorem assign_driver1_back {p : List Request} {rv : ReqVar} {d : Driver}
    {j : Nat} {r' : Request} (h : ((assign_driver1 p rv d).2.1)[j]? = some r')
    (hw : r'.status = Status.waiting) : p[j]? = some r' := by
  rcases assign_driver1_pending p rv d with hp | ⟨i, r, hr, _, hp⟩
  · rwa [hp] at h
  · rw [hp] at h
    by_cases hij : i = j
    · subst hij
      have hlt : i < p.length := by
        rcases List.getElem?_eq_some_iff.mp hr with ⟨hlt, _⟩
        exact hlt
      rw [List.getElem?_set_self (by simpa using hlt)] at h
      injection h with h
      rw [← h] at hw
      simp at hw
    · rwa [List.getElem?_set_ne hij] at h


theorem assign_go_cons (p : List Request) (rv : ReqVar) (d : Driver) (ds : List Driver) :
    assign_go p rv (d :: ds) =
      ((assign_driver1 p rv d).1 ::
         (assign_go (assign_driver1 p rv d).2.1 (assign_driver1 p rv d).2.2 ds).1,
       (assign_go (assign_driver1 p rv d).2.1 (assign_driver1 p rv d).2.2 ds).2.1,
       (assign_go (assign_driver1 p rv d).2.1 (assign_driver1 p rv d).2.2 ds).2.2) := rfl

theorem assign_go_ids (ds : List Driver) : ∀ (p : List Request) (rv : ReqVar),
    ((assign_go p rv ds).2.1).map Request.id = p.map Request.id := by
  induction ds with
  | nil => intro p rv; rfl
  | cons d ds ih =>
    intro p rv
    rw [assign_go_cons]
    simpa using (ih (assign_driver1 p rv d).2.1 (assign_driver1 p rv d).2.2).trans
      (assign_driver1_ids p rv d)

theorem assign_go_pending_length (ds : List Driver) (p : List Request) (rv : ReqVar) :
    ((assign_go p rv ds).2.1).length = p.length := by
  have h := assign_go_ids ds p rv
  have h1 := congrArg List.length h
  simpa using h1

theorem assign_go_drivers_length (ds : List Driver) : ∀ (p : List Request) (rv : ReqVar),
    ((assign_go p rv ds).1).length = ds.length := by
  induction ds with
  | nil => intro p rv; rfl
  | cons d ds ih =>
    intro p rv
    rw [assign_go_cons]
    simp [ih]

theorem assign_go_busy (ds : List Driver) : ∀ (p : List Request) (rv : ReqVar)
    (k : Nat) (d : Driver), ds[k]? = some d → d.target_id ≠ none →
    ((assign_go p rv ds).1)[k]? = some d := by
  induction ds with
  | nil => intro p rv k d h; simp at h
  | cons d0 ds ih =>
    intro p rv k d h hbusy
    rw [assign_go_cons]
    cases k with
    | zero =>
      simp at h
      subst h
      simp [assign_driver1_busy hbusy]
    | succ k =>
      simp at h
      simpa using ih (assign_driver1 p rv d0).2.1 (assign_driver1 p rv d0).2.2 k d h hbusy

theorem assign_go_pointwise (ds : List Driver) : ∀ (p : List Request) (rv : ReqVar)
    (j : Nat) (r r' : Request), p[j]? = some r → ((assign_go p rv ds).2.1)[j]? = some r' →
    r' = r ∨ (r.status = Status.waiting ∧
      ∃ did, r' = { r with status := Status.assigned, driver_id := some did }) := by
  induction ds with
  | nil =>
    intro p rv j r r' h h'
    simp only [assign_go] at h'
    rw [h] at h'
    injection h' with h'
    exact Or.inl h'.symm
  | cons d ds ih =>
    intro p rv j r r' h h'
    rw [assign_go_cons] at h'
    simp only at h'
    rcases assign_driver1_pending p rv d with hp | ⟨i, q, hq, hqw, hp⟩
    · have hmid : ((assign_driver1 p rv d).2.1)[j]? = some r := by rw [hp]; exact h
      exact ih _ _ j r r' hmid h'
    · by_cases hij : i = j
      · subst hij
        have hqr : q = r := by
          rw [h] at hq
          injection hq with e
          exact e.symm
        subst hqr
        have hlt : i < p.length := (List.getElem?_eq_some_iff.mp hq).1
        have hmid : ((assign_driver1 p rv d).2.1)[i]? =
            some { q with status := Status.assigned, driver_id := some d.id } := by
          rw [hp, List.getElem?_set_self (by simpa using hlt)]
        rcases ih _ _ i _ r' hmid h' with h1 | ⟨h1, did, h2⟩
        · exact Or.inr ⟨hqw, d.id, h1⟩
        · simp at h1
      · have hmid : ((assign_driver1 p rv d).2.1)[j]? = some r := by
          rw [hp, List.getElem?_set_ne hij, h]
        exact ih _ _ j r r' hmid h'


theorem nodup_ids_ne {p : List Request} (h : (p.map Request.id).Nodup)
    {i j : Nat} {a b : Request} (ha : p[i]? = some a) (hb : p[j]? = some b)
    (hij : i ≠ j) : a.id ≠ b.id := by
  intro he
  have hga : (p.map Request.id)[i]? = some a.id := by
    rw [List.getElem?_map, ha]
    rfl
  have hgb : (p.map Request.id)[j]? = some b.id := by
    rw [List.getElem?_map, hb]
    rfl
  have hia : i < p.length := (List.getElem?_eq_some_iff.mp ha).1
  have hjb : j < p.length := (List.getElem?_eq_some_iff.mp hb).1
  rcases Nat.lt_or_ge i j with hlt | hge
  · exact (List.nodup_iff_getElem?_ne_getElem?.mp h) i j hlt (by simpa using hjb)
      (by rw [hga, hgb, he])
  · have hlt : j < i := Nat.lt_of_le_of_ne hge (fun e => hij e.symm)
    exact (List.nodup_iff_getElem?_ne_getElem?.mp h) j i hlt (by simpa using hia)
      (by rw [hga, hgb, he])

theorem assign_go_target (ds : List Driver) : ∀ (p : List Request) (rv : ReqVar)
    (k : Nat) (d d' : Driver) (tid : Nat), ds[k]? = some d →
    ((assign_go p rv ds).1)[k]? = some d' → d.target_id = none →
    d'.target_id = some tid →
    ∃ (j : Nat) (r : Request), p[j]? = some r ∧ r.status = Status.waiting ∧ r.id = tid := by
  induction ds with
  | nil => intro p rv k d d' tid h; simp at h
  | cons d0 ds ih =>
    intro p rv k d d' tid h h' hfree htgt
    rw [assign_go_cons] at h'
    cases k with
    | zero =>
      simp at h
      subst h
      simp at h'
      cases hi : firstWaitingIdx p with
      | none =>
        rw [assign_driver1_free_none hfree hi] at h'
        rw [← h'] at htgt
        rw [hfree] at htgt
        simp at htgt
      | some i =>
        obtain ⟨r, hr, hw⟩ := firstWaitingIdx_some hi
        rw [assign_driver1_free_some hfree hi hr] at h'
        rw [← h'] at htgt
        simp at htgt
        exact ⟨i, r, hr, hw, htgt⟩
    | succ k =>
      simp at h
      simp at h'
      obtain ⟨j, r, hjr, hw, hid⟩ :=
        ih (assign_driver1 p rv d0).2.1 (assign_driver1 p rv d0).2.2 k d d' tid h h' hfree htgt
      exact ⟨j, r, assign_driver1_back hjr hw, hw, hid⟩


theorem assign_head_tail_ne {p : List Request} {rv : ReqVar} {d0 : Driver}
    {ds : List Driver} {t1 t2 : Nat} {k : Nat} {d2 d2' : Driver}
    (hnd : (p.map Request.id).Nodup) (hfree0 : d0.target_id = none)
    (ht0 : (assign_driver1 p rv d0).1.target_id = some t1)
    (h2 : ds[k]? = some d2)
    (h2' : ((assign_go (assign_driver1 p rv d0).2.1
              (assign_driver1 p rv d0).2.2 ds).1)[k]? = some d2')
    (hfree2 : d2.target_id = none) (ht2 : d2'.target_id = some t2) : t1 ≠ t2 := by
  cases hi : firstWaitingIdx p with
  | none =>
    rw [assign_driver1_free_none hfree0 hi] at ht0
    rw [hfree0] at ht0
    simp at ht0
  | some i =>
    obtain ⟨r, hr, hw⟩ := firstWaitingIdx_some hi
    have hq := @assign_driver1_free_some p rv d0 i r hfree0 hi hr
    rw [hq] at ht0
    simp at ht0
    obtain ⟨j, rj, hjr, hjw, hjid⟩ :=
      assign_go_target ds (assign_driver1 p rv d0).2.1 (assign_driver1 p rv d0).2.2
        k d2 d2' t2 h2 h2' hfree2 ht2
    have hlt : i < p.length := (List.getElem?_eq_some_iff.mp hr).1
    have hij : i ≠ j := by
      intro he
      subst he
      rw [hq] at hjr
      simp only at hjr
      rw [List.getElem?_set_self (by simpa using hlt)] at hjr
      injection hjr with e
      rw [← e] at hjw
      simp at hjw
    have hjp : p[j]? = some rj := by
      rw [hq] at hjr
      simp only at hjr
      rwa [List.getElem?_set_ne hij] at hjr
    have hne := nodup_ids_ne hnd hr hjp hij
    rw [ht0, hjid] at hne
    exact hne

theorem assign_go_uniq (ds : List Driver) : ∀ (p : List Request) (rv : ReqVar),
    (p.map Request.id).Nodup →
    ∀ (k1 k2 : Nat) (d1 d2 d1' d2' : Driver) (t1 t2 : Nat),
    ds[k1]? = some d1 → ds[k2]? = some d2 →
    ((assign_go p rv ds).1)[k1]? = some d1' →
    ((assign_go p rv ds).1)[k2]? = some d2' →
    d1.target_id = none → d2.target_id = none →
    d1'.target_id = some t1 → d2'.target_id = some t2 → k1 ≠ k2 → t1 ≠ t2 := by
  induction ds with
  | nil => intro p rv hnd k1 k2 d1 d2 d1' d2' t1 t2 h1; simp at h1
  | cons d0 ds ih =>
    intro p rv hnd k1 k2 d1 d2 d1' d2' t1 t2 h1 h2 h1' h2' hf1 hf2 ht1 ht2 hkk
    rw [assign_go_cons] at h1' h2'
    cases k1 with
    | zero =>
      simp at h1 h1'
      subst h1
      cases k2 with
      | zero => exact absurd rfl hkk
      | succ k2 =>
        simp at h2 h2'
        rw [← h1'] at ht1
        exact assign_head_tail_ne hnd hf1 ht1 h2 h2' hf2 ht2
    | succ k1 =>
      simp at h1 h1'
      cases k2 with
      | zero =>
        simp at h2 h2'
        subst h2
        rw [← h2'] at ht2
        exact (assign_head_tail_ne hnd hf2 ht2 h1 h1' hf1 ht1).symm
      | succ k2 =>
        simp at h2 h2'
        have hnd' : (((assign_driver1 p rv d0).2.1).map Request.id).Nodup := by
          rw [assign_driver1_ids]
          exact hnd
        exact ih (assign_driver1 p rv d0).2.1 (assign_driver1 p rv d0).2.2 hnd'
          k1 k2 d1 d2 d1' d2' t1 t2 h1 h2 h1' h2' hf1 hf2 ht1 ht2
          (fun he => hkk (by rw [he]))


/-- Claim C5: a driver with an active assignment is skipped by the
assignment loop; a driver with none is assigned the first waiting request
in pending-list order (status becomes assigned, the request records the
driver id, the driver's target is set to the pickup point) or nothing when
no request is waiting; and, over the whole pass, two distinct free drivers
never get the same request (given distinct request ids). -/
theorem assign_pass_first_waiting_in_order :
    (∀ (p : List Request) (rv : ReqVar) (d : Driver),
        d.target_id ≠ none → assign_driver1 p rv d = (d, p, rv)) ∧
    (∀ (p : List Request) (rv : ReqVar) (d : Driver) (i : Nat) (r : Request),
        d.target_id = none → firstWaitingIdx p = some i → p[i]? = some r →
        assign_driver1 p rv d =
          ({ d with target_id := some r.id, tx := some r.px, ty := some r.py },
           p.set i { r with status := Status.assigned, driver_id := some d.id },
           ReqVar.idx i)) ∧
    (∀ (p : List Request) (rv : ReqVar) (d : Driver),
        d.target_id = none → firstWaitingIdx p = none →
        assign_driver1 p rv d =
          (d, p, if p.length = 0 then rv else ReqVar.idx (p.length - 1))) ∧
    (∀ (ds : List Driver) (p : List Request) (rv : ReqVar),
        (p.map Request.id).Nodup →
        ∀ (k1 k2 : Nat) (d1 d2 d1' d2' : Driver) (t1 t2 : Nat),
        ds[k1]? = some d1 → ds[k2]? = some d2 →
        ((assign_go p rv ds).1)[k1]? = some d1' →
        ((assign_go p rv ds).1)[k2]? = some d2' →
        d1.target_id = none → d2.target_id = none →
        d1'.target_id = some t1 → d2'.target_id = some t2 → k1 ≠ k2 → t1 ≠ t2) :=
  ⟨fun _ _ _ h => assign_driver1_busy h,
   fun _ _ _ _ _ hd hi hr => assign_driver1_free_some hd hi hr,
   fun _ _ _ hd hi => assign_driver1_free_none hd hi,
   fun ds p rv hnd => assign_go_uniq ds p rv hnd⟩

theorem assign_pass_first_waiting_in_order_witness :
    (assign_driver1 [scenarioRequest] ReqVar.unbound scenarioDriver =
      ({ scenarioDriver with target_id := some 0, tx := some 0, ty := some 0 },
       [{ scenarioRequest with status := Status.assigned, driver_id := some 0 }],
       ReqVar.idx 0)) ∧ (0 : Nat) ≠ 1 :=
  ⟨assign_pass_first_waiting_in_order.2.1 [scenarioRequest] ReqVar.unbound
      scenarioDriver 0 scenarioRequest rfl rfl rfl,
   assign_pass_first_waiting_in_order.2.2.2
      [scenarioDriver, { scenarioDriver with id := 1 }]
      [scenarioRequest, { scenarioRequest with id := 1 }] ReqVar.unbound
      (by decide) 0 1 scenarioDriver { scenarioDriver with id := 1 }
      { scenarioDriver with target_id := some 0, tx := some 0, ty := some 0 }
      { scenarioDriver with id := 1, target_id := some 1, tx := some 0, ty := some 0 }
      0 1 rfl rfl rfl rfl rfl rfl rfl rfl (by decide)⟩


theorem statusLe_refl (a : Status) : statusLe a a = true := by
  cases a <;> rfl

theorem statusLe_trans {a b c : Status} (h1 : statusLe a b = true)
    (h2 : statusLe b c = true) : statusLe a c = true := by
  cases a <;> cases b <;> cases c <;> simp_all [statusLe]

theorem statusLe_delivered {x : Status} (h : statusLe Status.delivered x = true) :
    x = Status.delivered := by
  cases x <;> simp_all [statusLe]

theorem StepInv_refl (s : SimState) : StepInv s s := by
  refine ⟨rfl, rfl, ⟨[], by simp⟩, ?_⟩
  intro j r r' h1 h2
  rw [h1] at h2
  injection h2 with h2
  subst h2
  exact ⟨rfl, rfl, statusLe_refl _, fun hd hnd => absurd hd hnd⟩

theorem StepInv_of_fields {s out : SimState} (inv : StepInv s out)
    {out' : SimState} (ht : out'.t = out.t) (hp : out'.pending = out.pending)
    (hw : out'.served_waits = out.served_waits) : StepInv s out' := by
  obtain ⟨h1, h2, ⟨ws, h3⟩, h4⟩ := inv
  refine ⟨ht.trans h1, by rw [hp]; exact h2, ⟨ws, by rw [hw]; exact h3⟩, ?_⟩
  intro j r r' ha hb
  rw [hp] at hb
  obtain ⟨e1, e2, e3, e4⟩ := h4 j r r' ha hb
  exact ⟨e1, e2, e3, fun hd hnd => by rw [hw]; exact e4 hd hnd⟩

theorem StepInv_trans {s1 s2 s3 : SimState} (a : StepInv s1 s2)
    (b : StepInv s2 s3) : StepInv s1 s3 := by
  obtain ⟨at1, al, ⟨wsa, aw⟩, ap⟩ := a
  obtain ⟨bt, bl, ⟨wsb, bw⟩, bp⟩ := b
  refine ⟨bt.trans at1, bl.trans al, ⟨wsa ++ wsb, by rw [bw, aw, List.append_assoc]⟩, ?_⟩
  intro j r r' h1 h3
  have hj1 : j < s1.pending.length := (List.getElem?_eq_some_iff.mp h1).1
  have hj2 : j < s2.pending.length := by rw [al]; exact hj1
  have h2 : s2.pending[j]? = some s2.pending[j] := List.getElem?_eq_getElem hj2
  obtain ⟨e1, e2, e3, e4⟩ := ap j r _ h1 h2
  obtain ⟨f1, f2, f3, f4⟩ := bp j _ r' h2 h3
  refine ⟨f1.trans e1, f2.trans e2, statusLe_trans e3 f3, ?_⟩
  intro hd hnd
  by_cases hmid : s2.pending[j].status = Status.delivered
  · have hmem := e4 hmid hnd
    rw [bw]
    exact List.mem_append.mpr (Or.inl hmem)
  · have hmem := f4 hd hmid
    rw [at1, e2] at hmem
    exact hmem


theorem findReq_spec : ∀ (p : List Request) (tid : Nat) (i : Nat) (r : Request),
    findReq p tid = some (i, r) → p[i]? = some r ∧ r.id = tid := by
  intro p
  induction p with
  | nil => intro tid i r h; simp [findReq] at h
  | cons q qs ih =>
    intro tid i r h
    by_cases hq : q.id = tid
    · simp only [findReq, if_pos hq] at h
      injection h with h
      have hi := congrArg Prod.fst h
      have hr := congrArg Prod.snd h
      simp at hi hr
      subst hi
      subst hr
      exact ⟨by simp, hq⟩
    · simp only [findReq, if_neg hq] at h
      obtain ⟨⟨j, rj⟩, hj, he⟩ := Option.map_eq_some'.mp h
      have hi := congrArg Prod.fst he
      have hr := congrArg Prod.snd he
      simp at hi hr
      subst hi
      subst hr
      obtain ⟨hget, hid⟩ := ih tid j rj hj
      exact ⟨by simpa using hget, hid⟩

theorem pointwise_of_set {p : List Request} {i : Nat} {r rNew : Request}
    (hget : p[i]? = some r) {j : Nat} {q q' : Request}
    (h1 : p[j]? = some q) (h2 : (p.set i rNew)[j]? = some q') :
    (q' = q ∧ j ≠ i) ∨ (j = i ∧ q = r ∧ q' = rNew) := by
  by_cases hij : j = i
  · subst hij
    have hq : q = r := by
      rw [hget] at h1
      injection h1 with e
      exact e.symm
    have hlt : j < p.length := (List.getElem?_eq_some_iff.mp hget).1
    rw [List.getElem?_set_self (by simpa using hlt)] at h2
    injection h2 with e
    exact Or.inr ⟨rfl, hq, e.symm⟩
  · rw [List.getElem?_set_ne (fun e => hij e.symm)] at h2
    rw [h1] at h2
    injection h2 with e
    exact Or.inl ⟨e.symm, hij⟩

theorem StepInv_set_pick {s : SimState} {i : Nat} {r : Request}
    (hget : s.pending[i]? = some r) (ha : r.status = Status.assigned) :
    StepInv s { s with pending := s.pending.set i { r with status := Status.picked } } := by
  refine ⟨rfl, by simp, ⟨[], by simp⟩, ?_⟩
  intro j q q' h1 h2
  rcases pointwise_of_set hget h1 h2 with ⟨he, _⟩ | ⟨hji, hqr, he⟩
  · subst he
    exact ⟨rfl, rfl, statusLe_refl _, fun hd hnd => absurd hd hnd⟩
  · subst hqr
    subst he
    refine ⟨rfl, rfl, by rw [ha]; rfl, ?_⟩
    intro hd
    simp at hd

theorem StepInv_set_deliver {s : SimState} {i : Nat} {r : Request}
    (hget : s.pending[i]? = some r) (hp : r.status = Status.picked) :
    StepInv s { s with
      pending := s.pending.set i { r with status := Status.delivered },
      served := s.served + 1,
      served_waits := s.served_waits ++ [s.t - r.t] } := by
  refine ⟨rfl, by simp, ⟨[s.t - r.t], rfl⟩, ?_⟩
  intro j q q' h1 h2
  rcases pointwise_of_set hget h1 h2 with ⟨he, _⟩ | ⟨hji, hqr, he⟩
  · subst he
    refine ⟨rfl, rfl, statusLe_refl _, fun hd hnd => absurd hd hnd⟩
  · subst hqr
    subst he
    refine ⟨rfl, rfl, by rw [hp]; rfl, ?_⟩
    intro _ _
    simp


theorem move_check_master {ce : Driver → Point → Bool} {s : SimState} {rv : ReqVar}
    {tv : Option Point} {d : Driver}
    {out : SimState × ReqVar × Option Point × Driver}
    (h : move_check ce s rv tv d = .ok out) :
    StepInv s out.1 ∧
    (out.2.2.2.target_id = d.target_id ∨
      (out.2.2.2.target_id = none ∧ ∃ (i : Nat) (r0 : Request),
        rv = ReqVar.idx i ∧ s.pending[i]? = some r0 ∧ r0.status = Status.picked ∧
        out.1.pending[i]? = some { r0 with status := Status.delivered })) := by
  rcases tv with _ | tgt
  · simp [move_check] at h
  · simp only [move_check] at h
    by_cases hce : ce d tgt
    · rw [if_pos hce] at h
      rcases rv with _ | _ | i
      · simp at h
      · simp at h
      · dsimp only at h
        cases hget : s.pending[i]? with
        | none =>
          rw [hget] at h
          simp at h
        | some r =>
          rw [hget] at h
          dsimp only at h
          by_cases ha : r.status = Status.assigned
          · rw [if_pos ha] at h
            injection h with h
            subst h
            refine ⟨StepInv_set_pick hget ha, Or.inl rfl⟩
          · by_cases hp : r.status = Status.picked
            · rw [if_neg ha, if_pos hp] at h
              injection h with h
              subst h
              have hlt : i < s.pending.length := (List.getElem?_eq_some_iff.mp hget).1
              refine ⟨StepInv_set_deliver hget hp, Or.inr ⟨rfl, i, r, rfl, hget, hp, ?_⟩⟩
              simp only
              rw [List.getElem?_set_self (by simpa using hlt)]
            · rw [if_neg ha, if_neg hp] at h
              injection h with h
              subst h
              exact ⟨StepInv_refl s, Or.inl rfl⟩
    · rw [if_neg hce] at h
      injection h with h
      subst h
      exact ⟨StepInv_refl s, Or.inl rfl⟩


theorem move_one_master {mv : Driver → Point → Driver} {ce : Driver → Point → Bool}
    (hmv : ∀ d t, (mv d t).target_id = d.target_id)
    {s : SimState} {rv : ReqVar} {tv : Option Point} {d : Driver}
    {out : SimState × ReqVar × Option Point × Driver}
    (h : move_one mv ce s rv tv d = .ok out) :
    StepInv s out.1 ∧
    (out.2.2.2.target_id = d.target_id ∨
      (out.2.2.2.target_id = none ∧ ∃ tid, d.target_id = some tid ∧
        ∃ (j : Nat) (r : Request), out.1.pending[j]? = some r ∧ r.id = tid ∧
          r.status = Status.delivered)) := by
  cases hd : d.target_id with
  | none =>
    rw [move_one, hd] at h
    dsimp only at h
    obtain ⟨inv, cl⟩ := move_check_master h
    refine ⟨inv, ?_⟩
    rcases cl with cl | ⟨cl, _⟩
    · exact Or.inl (cl.trans hd)
    · exact Or.inl cl
  | some tid =>
    rw [move_one, hd] at h
    dsimp only at h
    cases hf : findReq s.pending tid with
    | none =>
      rw [hf] at h
      dsimp only at h
      injection h with h
      subst h
      exact ⟨StepInv_refl s, Or.inl hd⟩
    | some ir =>
      rw [hf] at h
      dsimp only at h
      obtain ⟨hget, hid⟩ := findReq_spec s.pending tid ir.1 ir.2 (by rw [hf])
      obtain ⟨inv, cl⟩ := move_check_master h
      refine ⟨inv, ?_⟩
      rcases cl with cl | ⟨cln, i0, r0, hrv, hg0, hp0, hdel⟩
      · exact Or.inl (cl.trans ((hmv d _).trans hd))
      · right
        refine ⟨cln, tid, rfl, ?_⟩
        injection hrv with hi0
        subst hi0
        have hr0 : r0 = ir.2 := by
          rw [hget] at hg0
          injection hg0 with e
          exact e.symm
        subst hr0
        exact ⟨ir.1, { ir.2 with status := Status.delivered }, hdel, hid, rfl⟩


theorem move_go_master {mv : Driver → Point → Driver} {ce : Driver → Point → Bool}
    (hmv : ∀ d t, (mv d t).target_id = d.target_id) :
    ∀ (ds : List Driver) (s : SimState) (rv : ReqVar) (tv : Option Point)
      (out : SimState × List Driver),
    move_go mv ce s rv tv ds = .ok out →
    StepInv s out.1 ∧ out.2.length = ds.length ∧
    ∀ (k : Nat) (d : Driver), ds[k]? = some d → ∃ d', out.2[k]? = some d' ∧
      (d'.target_id = d.target_id ∨
        (d'.target_id = none ∧ ∃ tid, d.target_id = some tid ∧
          ∃ (j : Nat) (r : Request), out.1.pending[j]? = some r ∧ r.id = tid ∧
            r.status = Status.delivered)) := by
  intro ds
  induction ds with
  | nil =>
    intro s rv tv out h
    simp only [move_go] at h
    injection h with h
    subst h
    exact ⟨StepInv_refl s, rfl, fun k d hk => by simp at hk⟩
  | cons d0 ds ih =>
    intro s rv tv out h
    simp only [move_go] at h
    cases h1 : move_one mv ce s rv tv d0 with
    | error e => rw [h1, errorBind] at h; simp at h
    | ok st =>
      rw [h1, okBind] at h
      cases h2 : move_go mv ce st.1 st.2.1 st.2.2.1 ds with
      | error e => rw [h2, errorBind] at h; simp at h
      | ok z =>
        rw [h2, okBind] at h
        injection h with h
        subst h
        obtain ⟨inv1, dcl1⟩ := move_one_master hmv h1
        obtain ⟨inv2, len2, dcl2⟩ := ih st.1 st.2.1 st.2.2.1 z h2
        refine ⟨StepInv_trans inv1 inv2, by simp [len2], ?_⟩
        intro k d hk
        cases k with
        | zero =>
          simp only [List.getElem?_cons_zero] at hk
          injection hk with hk
          subst hk
          refine ⟨st.2.2.2, by simp, ?_⟩
          rcases dcl1 with cl | ⟨cln, tid, htid, j, r, hjr, hid, hdel⟩
          · exact Or.inl cl
          · right
            refine ⟨cln, tid, htid, ?_⟩
            have hj : j < st.1.pending.length := (List.getElem?_eq_some_iff.mp hjr).1
            have hj' : j < z.1.pending.length := by
              rw [inv2.2.1]
              exact hj
            have hz : z.1.pending[j]? = some z.1.pending[j] := List.getElem?_eq_getElem hj'
            obtain ⟨e1, _, e3, _⟩ := inv2.2.2.2 j r _ hjr hz
            refine ⟨j, z.1.pending[j], hz, by rw [e1, hid], ?_⟩
            rw [hdel] at e3
            exact statusLe_delivered e3
        | succ k =>
          simp only [List.getElem?_cons_succ] at hk
          obtain ⟨d', hd', cl⟩ := dcl2 k d hk
          exact ⟨d', by simpa using hd', cl⟩


theorem expireReq_facts (t k : Int) (r : Request) :
    (expireReq t k r).id = r.id ∧ (expireReq t k r).t = r.t ∧
    statusLe r.status (expireReq t k r).status = true ∧
    ((expireReq t k r).status = Status.delivered → r.status = Status.delivered) := by
  by_cases hc : (r.status = .waiting ∨ r.status = .assigned) ∧ t - r.t > k
  · refine ⟨by simp [expireReq, hc], by simp [expireReq, hc], ?_, ?_⟩
    · simp only [expireReq, if_pos hc]
      rcases hc.1 with hw | ha
      · rw [hw]; rfl
      · rw [ha]; rfl
    · simp [expireReq, hc]
  · simp [expireReq, hc, statusLe_refl]

theorem StepInv_expire (s : SimState) : StepInv s (expire_pass s) := by
  have hmap : (expire_pass s).pending = s.pending.map (expireReq s.t s.timeout) := by
    simp [expire_pass, expire_go_eq]
  refine ⟨rfl, by rw [hmap]; simp, ⟨[], by simp [expire_pass]⟩, ?_⟩
  intro j r r' h1 h2
  rw [hmap, List.getElem?_map, h1] at h2
  injection h2 with h2
  obtain ⟨e1, e2, e3, e4⟩ := expireReq_facts s.t s.timeout r
  rw [h2] at e1 e2 e3 e4
  exact ⟨e1, e2, e3, fun hd hnd => absurd (e4 hd) hnd⟩

theorem StepInv_assign (s : SimState) (rv : ReqVar) (ds : List Driver)
    (dlist : List Driver) :
    StepInv s
      { s with drivers := dlist, pending := (assign_go s.pending rv ds).2.1 } := by
  refine ⟨rfl, by simp [assign_go_pending_length], ⟨[], by simp⟩, ?_⟩
  intro j r r' h1 h2
  simp only at h2
  rcases assign_go_pointwise ds s.pending rv j r r' h1 h2 with he | ⟨hw, did, he⟩
  · subst he
    exact ⟨rfl, rfl, statusLe_refl _, fun hd hnd => absurd hd hnd⟩
  · subst he
    refine ⟨rfl, rfl, by rw [hw]; rfl, ?_⟩
    intro hd
    simp at hd

theorem move_pass_master {mv : Driver → Point → Driver} {ce : Driver → Point → Bool}
    (hmv : ∀ d t, (mv d t).target_id = d.target_id)
    {rv : ReqVar} {s : SimState} {out : SimState}
    (h : move_pass mv ce rv s = .ok out) :
    StepInv s out ∧ out.drivers.length = s.drivers.length ∧
    ∀ (k : Nat) (d : Driver), s.drivers[k]? = some d →
      ∃ d', out.drivers[k]? = some d' ∧
        (d'.target_id = d.target_id ∨
          (d'.target_id = none ∧ ∃ tid, d.target_id = some tid ∧
            ∃ (j : Nat) (r : Request), out.pending[j]? = some r ∧ r.id = tid ∧
              r.status = Status.delivered)) := by
  unfold move_pass at h
  cases hz : move_go mv ce s rv none s.drivers with
  | error e =>
    rw [hz, errorBind] at h
    simp at h
  | ok z =>
    rw [hz, okBind] at h
    injection h with h
    subst h
    obtain ⟨inv, len, dcl⟩ := move_go_master hmv s.drivers s rv none z hz
    exact ⟨StepInv_of_fields inv rfl rfl rfl, len, dcl⟩

theorem simulate_step_tail_master {mv : Driver → Point → Driver}
    {ce : Driver → Point → Bool}
    (hmv : ∀ d t, (mv d t).target_id = d.target_id)
    {s s' : SimState} (h : simulate_step_tail mv ce s = .ok s') :
    StepInv s s' ∧ s'.drivers.length = s.drivers.length ∧
    ∀ (k : Nat) (d : Driver), s.drivers[k]? = some d → d.target_id ≠ none →
      ∃ d', s'.drivers[k]? = some d' ∧
        (d'.target_id = d.target_id ∨
          (d'.target_id = none ∧ ∃ tid, d.target_id = some tid ∧
            ∃ (j : Nat) (r : Request), s'.pending[j]? = some r ∧ r.id = tid ∧
              r.status = Status.delivered)) := by
  have h' : move_pass mv ce
      (assign_go (expire_pass s).pending (expire_leftover (expire_pass s).pending)
        (expire_pass s).drivers).2.2
      { expire_pass s with
        drivers := (assign_go (expire_pass s).pending
          (expire_leftover (expire_pass s).pending) (expire_pass s).drivers).1,
        pending := (assign_go (expire_pass s).pending
          (expire_leftover (expire_pass s).pending) (expire_pass s).drivers).2.1 } =
      .ok s' := h
  obtain ⟨inv3, len3, dcl3⟩ := move_pass_master hmv h'
  have inv1 : StepInv s (expire_pass s) := StepInv_expire s
  have inv2 := StepInv_assign (expire_pass s)
    (expire_leftover (expire_pass s).pending) (expire_pass s).drivers
    (assign_go (expire_pass s).pending
      (expire_leftover (expire_pass s).pending) (expire_pass s).drivers).1
  refine ⟨StepInv_trans (StepInv_trans inv1 inv2) inv3, ?_, ?_⟩
  · rw [len3]
    simp only
    rw [assign_go_drivers_length]
    rfl
  · intro k d hk hbusy
    have hk2 : ((assign_go (expire_pass s).pending
        (expire_leftover (expire_pass s).pending) (expire_pass s).drivers).1)[k]? =
        some d :=
      assign_go_busy (expire_pass s).drivers (expire_pass s).pending
        (expire_leftover (expire_pass s).pending) k d hk hbusy
    exact dcl3 k d hk2


theorem move_one_stepinv {mv : Driver → Point → Driver} {ce : Driver → Point → Bool}
    {s : SimState} {rv : ReqVar} {tv : Option Point} {d : Driver}
    {out : SimState × ReqVar × Option Point × Driver}
    (h : move_one mv ce s rv tv d = .ok out) : StepInv s out.1 := by
  cases hd : d.target_id with
  | none =>
    rw [move_one, hd] at h
    dsimp only at h
    exact (move_check_master h).1
  | some tid =>
    rw [move_one, hd] at h
    dsimp only at h
    cases hf : findReq s.pending tid with
    | none =>
      rw [hf] at h
      dsimp only at h
      injection h with h
      subst h
      exact StepInv_refl s
    | some ir =>
      rw [hf] at h
      dsimp only at h
      exact (move_check_master h).1

theorem move_go_stepinv {mv : Driver → Point → Driver} {ce : Driver → Point → Bool} :
    ∀ (ds : List Driver) (s : SimState) (rv : ReqVar) (tv : Option Point)
      (out : SimState × List Driver),
    move_go mv ce s rv tv ds = .ok out → StepInv s out.1 := by
  intro ds
  induction ds with
  | nil =>
    intro s rv tv out h
    simp only [move_go] at h
    injection h with h
    subst h
    exact StepInv_refl s
  | cons d0 ds ih =>
    intro s rv tv out h
    simp only [move_go] at h
    cases h1 : move_one mv ce s rv tv d0 with
    | error e => rw [h1, errorBind] at h; simp at h
    | ok st =>
      rw [h1, okBind] at h
      cases h2 : move_go mv ce st.1 st.2.1 st.2.2.1 ds with
      | error e => rw [h2, errorBind] at h; simp at h
      | ok z =>
        rw [h2, okBind] at h
        injection h with h
        subst h
        exact StepInv_trans (move_one_stepinv h1) (ih st.1 st.2.1 st.2.2.1 z h2)

theorem simulate_step_tail_stepinv {mv : Driver → Point → Driver}
    {ce : Driver → Point → Bool} {s s' : SimState}
    (h : simulate_step_tail mv ce s = .ok s') : StepInv s s' := by
  have h' : move_pass mv ce
      (assign_go (expire_pass s).pending (expire_leftover (expire_pass s).pending)
        (expire_pass s).drivers).2.2
      { expire_pass s with
        drivers := (assign_go (expire_pass s).pending
          (expire_leftover (expire_pass s).pending) (expire_pass s).drivers).1,
        pending := (assign_go (expire_pass s).pending
          (expire_leftover (expire_pass s).pending) (expire_pass s).drivers).2.1 } =
      .ok s' := h
  unfold move_pass at h'
  cases hz : move_go mv ce
      { expire_pass s with
        drivers := (assign_go (expire_pass s).pending
          (expire_leftover (expire_pass s).pending) (expire_pass s).drivers).1,
        pending := (assign_go (expire_pass s).pending
          (expire_leftover (expire_pass s).pending) (expire_pass s).drivers).2.1 }
      (assign_go (expire_pass s).pending (expire_leftover (expire_pass s).pending)
        (expire_pass s).drivers).2.2 none
      ((assign_go (expire_pass s).pending (expire_leftover (expire_pass s).pending)
        (expire_pass s).drivers).1) with
  | error e =>
    rw [hz, errorBind] at h'
    simp at h'
  | ok z =>
    rw [hz, okBind] at h'
    injection h' with h'
    subst h'
    have inv3 := move_go_stepinv _ _ _ _ _ hz
    have inv1 : StepInv s (expire_pass s) := StepInv_expire s
    have inv2 := StepInv_assign (expire_pass s)
      (expire_leftover (expire_pass s).pending) (expire_pass s).drivers
      (assign_go (expire_pass s).pending
        (expire_leftover (expire_pass s).pending) (expire_pass s).drivers).1
    exact StepInv_of_fields (StepInv_trans (StepInv_trans inv1 inv2) inv3) rfl rfl rfl


/-- Claim C6: over one run of the expiration/assignment/movement phases,
every pending request's status moves only forward along
waiting → assigned → picked → delivered, or waiting/assigned → expired. -/
theorem request_status_moves_forward
    (mv : Driver → Point → Driver) (ce : Driver → Point → Bool)
    (s s' : SimState) (h : simulate_step_tail mv ce s = .ok s') :
    s'.pending.length = s.pending.length ∧
    ∀ (j : Nat) (r r' : Request), s.pending[j]? = some r → s'.pending[j]? = some r' →
      statusLe r.status r'.status = true := by
  have inv := simulate_step_tail_stepinv h
  refine ⟨inv.2.1, ?_⟩
  intro j r r' h1 h2
  exact (inv.2.2.2 j r r' h1 h2).2.2.1

theorem request_status_moves_forward_witness :
    statusLe Status.waiting Status.assigned = true :=
  (request_status_moves_forward move_driver close_enough_truthy scenarioTick1
      scenarioOut rfl).2 0 scenarioRequest
    { scenarioRequest with status := Status.assigned, driver_id := some 0 } rfl rfl

/-- Claim C7: for any movement helper that leaves `target_id` alone (the
source's `move_driver` does nothing at all), one run of the phases changes
a driver's `target_id` only from `None` (new assignment) or to `None` when
its request was just delivered: a driver with an active assignment keeps it
until delivery and is never reassigned. -/
theorem driver_single_assignment_evolution
    (mv : Driver → Point → Driver) (ce : Driver → Point → Bool)
    (hmv : ∀ d t, (mv d t).target_id = d.target_id)
    (s s' : SimState) (h : simulate_step_tail mv ce s = .ok s') :
    s'.drivers.length = s.drivers.length ∧
    ∀ (k : Nat) (d d' : Driver), s.drivers[k]? = some d → s'.drivers[k]? = some d' →
      (d.target_id = none ∨ d'.target_id = d.target_id ∨
        (d'.target_id = none ∧ ∃ tid, d.target_id = some tid ∧
          ∃ (j : Nat) (r : Request), s'.pending[j]? = some r ∧ r.id = tid ∧
            r.status = Status.delivered)) := by
  obtain ⟨_, len, dcl⟩ := simulate_step_tail_master hmv h
  refine ⟨len, ?_⟩
  intro k d d' hk hk'
  by_cases hfree : d.target_id = none
  · exact Or.inl hfree
  · obtain ⟨d2, hd2, cl⟩ := dcl k d hk hfree
    have he : d2 = d' := by
      rw [hd2] at hk'
      injection hk'
    subst he
    exact Or.inr cl

theorem driver_single_assignment_evolution_witness :
    busyDriver.target_id = none ∨
    ({ busyDriver with target_id := none } : Driver).target_id = busyDriver.target_id ∨
    (({ busyDriver with target_id := none } : Driver).target_id = none ∧
      ∃ tid, busyDriver.target_id = some tid ∧
        ∃ (j : Nat) (r : Request), deliveryOut.pending[j]? = some r ∧ r.id = tid ∧
          r.status = Status.delivered) :=
  (driver_single_assignment_evolution move_driver ceTrue (fun _ _ => rfl)
      deliveryState deliveryOut rfl).2 0 busyDriver
    { busyDriver with target_id := none } rfl rfl

/-- Claim C8: a request that becomes delivered during one run of the
phases has the wait `t - req.t` — the current tick minus its creation
tick — appended to `served_waits`. -/
theorem delivered_wait_equals_tick_minus_creation
    (mv : Driver → Point → Driver) (ce : Driver → Point → Bool)
    (s s' : SimState) (h : simulate_step_tail mv ce s = .ok s') :
    ∀ (j : Nat) (r r' : Request), s.pending[j]? = some r → s'.pending[j]? = some r' →
      r'.status = Status.delivered → r.status ≠ Status.delivered →
      r'.t = r.t ∧ (s.t - r.t) ∈ s'.served_waits := by
  have inv := simulate_step_tail_stepinv h
  intro j r r' h1 h2 hd hnd
  obtain ⟨_, e2, _, e4⟩ := inv.2.2.2 j r r' h1 h2
  exact ⟨e2, e4 hd hnd⟩

theorem delivered_wait_equals_tick_minus_creation_witness :
    ({ pickedReq with status := Status.delivered } : Request).t = pickedReq.t ∧
    (deliveryState.t - pickedReq.t) ∈ deliveryOut.served_waits :=
  delivered_wait_equals_tick_minus_creation move_driver ceTrue deliveryState
    deliveryOut rfl 0 pickedReq { pickedReq with status := Status.delivered }
    rfl rfl rfl (by decide)


theorem load_drivers_go_ok : ∀ (lines : List Line) (n : Nat),
    (∀ l ∈ lines, driverLineBad l = false) →
    load_drivers_go n lines = .ok (numberDrivers n (lines.filterMap driverLineVal)) := by
  intro lines
  induction lines with
  | nil => intro n h; rfl
  | cons l ls ih =>
    intro n h
    have hl : driverLineBad l = false := h l (by simp)
    have hls : ∀ x ∈ ls, driverLineBad x = false := fun x hx => h x (by simp [hx])
    cases l with
    | blank => simpa [load_drivers_go, driverLineVal] using ih n hls
    | comment => simpa [load_drivers_go, driverLineVal] using ih n hls
    | fields fs =>
      match fs with
      | [] => simpa [load_drivers_go, driverLineVal] using ih n hls
      | [f] => simpa [load_drivers_go, driverLineVal] using ih n hls
      | f1 :: f2 :: rest =>
        simp only [driverLineBad, Bool.or_eq_false_iff, Option.isNone_eq_false_iff,
          Option.isSome_iff_exists] at hl
        obtain ⟨⟨x, hx⟩, ⟨y, hy⟩⟩ := hl
        simp only [load_drivers_go, hx, hy, ih (n + 1) hls, okBind,
          List.filterMap_cons, driverLineVal, numberDrivers, mkDriver]


theorem load_requests_go_ok : ∀ (lines : List Line) (n : Nat),
    (∀ l ∈ lines, reqLineBad l = false) →
    load_requests_go n lines = .ok (numberRequests n (lines.filterMap reqLineVal)) := by
  intro lines
  induction lines with
  | nil => intro n h; rfl
  | cons l ls ih =>
    intro n h
    have hl : reqLineBad l = false := h l (by simp)
    have hls : ∀ x ∈ ls, reqLineBad x = false := fun x hx => h x (by simp [hx])
    cases l with
    | blank => simpa [load_requests_go, reqLineVal] using ih n hls
    | comment => simpa [load_requests_go, reqLineVal] using ih n hls
    | fields fs =>
      match fs with
      | [] => simpa [load_requests_go, reqLineVal] using ih n hls
      | [f] => simpa [load_requests_go, reqLineVal] using ih n hls
      | [_, _] => simpa [load_requests_go, reqLineVal] using ih n hls
      | [_, _, _] => simpa [load_requests_go, reqLineVal] using ih n hls
      | [_, _, _, _] => simpa [load_requests_go, reqLineVal] using ih n hls
      | f1 :: f2 :: f3 :: f4 :: f5 :: rest =>
        simp only [reqLineBad, Bool.or_eq_false_iff, Option.isNone_eq_false_iff,
          Option.isSome_iff_exists] at hl
        obtain ⟨⟨⟨⟨⟨t1, h1⟩, ⟨t2, h2⟩⟩, ⟨t3, h3⟩⟩, ⟨t4, h4⟩⟩, ⟨t5, h5⟩⟩ := hl
        simp only [load_requests_go, h1, h2, h3, h4, h5, ih (n + 1) hls, okBind,
          List.filterMap_cons, reqLineVal, numberRequests, mkRequest]

/-- Claim C9 amended: the loaders silently skip blank lines, comment
lines, and lines with too few fields, returning records for the well-formed
lines in file order (ids numbered consecutively); lines with enough fields
but non-numeric values are not skipped — they raise. -/
theorem loaders_skip_short_and_comment_lines :
    (∀ lines : List Line, (∀ l ∈ lines, driverLineBad l = false) →
      load_drivers lines = .ok (numberDrivers 0 (lines.filterMap driverLineVal))) ∧
    (∀ lines : List Line, (∀ l ∈ lines, reqLineBad l = false) →
      load_requests lines = .ok (numberRequests 0 (lines.filterMap reqLineVal))) :=
  ⟨fun lines h => load_drivers_go_ok lines 0 h,
   fun lines h => load_requests_go_ok lines 0 h⟩

theorem loaders_skip_short_and_comment_lines_witness :
    load_drivers [Line.comment, Line.fields [Field.num 1, Field.num 2],
        Line.fields [Field.num 3], Line.blank,
        Line.fields [Field.num 4, Field.num 5, Field.num 6]] =
      Except.ok [mkDriver 0 (1, 2), mkDriver 1 (4, 5)] ∧
    load_requests [Line.fields [Field.num (3/2), Field.num 1, Field.num 2,
        Field.num 3, Field.num 4], Line.comment] =
      Except.ok [mkRequest 0 (3/2, 1, 2, 3, 4)] :=
  ⟨loaders_skip_short_and_comment_lines.1 _ (by decide),
   loaders_skip_short_and_comment_lines.2 _ (by decide)⟩

end Phase1
